import Mathlib

/-!
Shallow embedding of `src/fixed_set.h`: a two-level (FKS-style) static
perfect hash set over `int` keys.

Modelling conventions:
* C++ `int` values are Lean `Int`; `size_t` values are Lean `Nat`.
* In `LinearHashFunction::GetHash` the C++ expression
  `(1LL * value * m_coefficien + m_bias) % kPrime` mixes a `long long`
  with the `size_t` constant `kPrime`, so the signed 64-bit sum is first
  converted to unsigned 64-bit (reduction modulo `2^64`) and the `%` is
  computed on unsigned values.  The embedding keeps that conversion
  explicitly.  The `long long` product itself cannot overflow for `int`
  inputs, so it is modelled as exact integer arithmetic.
* The pseudo-random generator is modelled as a stream
  `gen : Nat → LinearHashFunction` together with a threaded index: each
  call to `Generate()` consumes the next element of the stream.
* `throw BadHashFunctionException` becomes `Except.error`; vector
  indexing uses `List.getElem?` so an out-of-bounds access (or a failed
  `assert`) surfaces as `none` instead of undefined behaviour.
-/

namespace FixedSetSpec

/-- `LinearHashFunction::kPrime` (also `GenerateLinearHashFunction::kPrime`). -/
def kPrime : Nat := 1000000021

/-- `class LinearHashFunction` : the affine member of the hash family. -/
structure LinearHashFunction where
  m_coefficien : Int
  m_bias : Int
deriving DecidableEq

/-- `LinearHashFunction::GetHash`:
`static_cast<size_t>((1LL * value * m_coefficien + m_bias) % kPrime)`.
The signed 64-bit affine value converts to unsigned 64-bit (i.e. is taken
modulo `2^64`) before the `%` by the `size_t` constant `kPrime`. -/
def GetHash (h : LinearHashFunction) (value : Int) : Nat :=
  ((value * h.m_coefficien + h.m_bias) % (2 ^ 64 : Int)).toNat % kPrime

/-- `class BadHashFunctionException`. -/
structure BadHashFunctionException where
  errorMessage : String
deriving DecidableEq

/-- The occupancy vector `lens` computed inside `FixedSet::GetHashFunction`:
`lens[i]` counts the keys of `numbers` whose hash lands in bucket `i`
modulo `cnt_buckets`. -/
def bucketLens (hash : LinearHashFunction) (cnt_buckets : Nat)
    (numbers : List Int) : List Nat :=
  (List.range cnt_buckets).map
    (fun i => (numbers.filter (fun v => GetHash hash v % cnt_buckets == i)).length)

/-- The sum `hu` accumulated inside `FixedSet::GetHashFunction`. -/
def huOf (f : Nat → Nat) (lens : List Nat) : Nat :=
  (lens.map f).sum

/-- One run of the retry loop of `FixedSet::GetHashFunction`:
`attempts` is the remaining number of iterations (`10 - cnt_run`),
`idx` is the current position in the generator stream.  Returns the
accepted hash function together with the next stream position. -/
def getHashFunctionAux (cnt_buckets : Nat) (numbers : List Int)
    (f : Nat → Nat) (criteria : Nat) (gen : Nat → LinearHashFunction) :
    Nat → Nat → Except BadHashFunctionException (LinearHashFunction × Nat)
  | 0, _ => .error ⟨"Bad hash function"⟩
  | attempts + 1, idx =>
    let hash := gen idx
    if huOf f (bucketLens hash cnt_buckets numbers) ≤ criteria then
      .ok (hash, idx + 1)
    else
      getHashFunctionAux cnt_buckets numbers f criteria gen attempts (idx + 1)

/-- `FixedSet::GetHashFunction`: up to 10 attempts (`while (cnt_run < 10)`),
then `throw BadHashFunctionException("Bad hash function")`. -/
def GetHashFunction (cnt_buckets : Nat) (numbers : List Int)
    (f : Nat → Nat) (criteria : Nat) (gen : Nat → LinearHashFunction)
    (idx : Nat) : Except BadHashFunctionException (LinearHashFunction × Nat) :=
  getHashFunctionAux cnt_buckets numbers f criteria gen 10 idx

/-- `class FixedSet::InnerSet` (second-level table): hash function,
slot array of optional keys, slot count. -/
structure InnerSet where
  m_hash : LinearHashFunction
  m_data : List (Option Int)
  m_cnt_buckets : Nat
deriving DecidableEq

/-- `FixedSet::InnerSet::Split`: place every key at slot
`hash % cnt_buckets`; `emplace` overwrites, so a slot holds the last key
of `numbers` mapping to it (or nothing). -/
def InnerSet.Split (numbers : List Int) (hash : LinearHashFunction)
    (cnt_buckets : Nat) : List (Option Int) :=
  (List.range cnt_buckets).map
    (fun i => (numbers.filter (fun v => GetHash hash v % cnt_buckets == i)).getLast?)

/-- The second-level acceptance summand
`[](int value) { return (value <= 1) ? 0 : value; }`. -/
def innerCriteriaFun (value : Nat) : Nat :=
  if value ≤ 1 then 0 else value

/-- `FixedSet::InnerSet::Initialize`: table size `cnt_number² + 1`,
retry search with the `(value <= 1) ? 0 : value` summand and criteria 0,
then `Split`. -/
def InnerSet.Initialize (gen : Nat → LinearHashFunction) (idx : Nat)
    (numbers : List Int) : Except BadHashFunctionException (InnerSet × Nat) :=
  let cnt_number := numbers.length
  let cnt_buckets := cnt_number * cnt_number + 1
  match GetHashFunction cnt_buckets numbers innerCriteriaFun 0 gen idx with
  | .error e => .error e
  | .ok (hash, idx') =>
    .ok (⟨hash, InnerSet.Split numbers hash cnt_buckets, cnt_buckets⟩, idx')

/-- `FixedSet::InnerSet::Contains`.  `none` models a failed
`assert(m_cnt_buckets != 0)` or an out-of-bounds vector access. -/
def InnerSet.Contains (s : InnerSet) (number : Int) : Option Bool :=
  if s.m_cnt_buckets = 0 then
    none
  else
    match s.m_data[GetHash s.m_hash number % s.m_cnt_buckets]? with
    | none => none
    | some none => some false
    | some (some v) => some (v == number)

/-- `class FixedSet` (top level): hash function, one `InnerSet` per
bucket, bucket count. -/
structure FixedSet where
  m_hash : LinearHashFunction
  m_data : List InnerSet
  m_cnt_buckets : Nat
deriving DecidableEq

/-- `FixedSet::Split`: partition `numbers` into `cnt_buckets` buckets by
`hash % cnt_buckets`, preserving order inside each bucket. -/
def FixedSet.Split (numbers : List Int) (hash : LinearHashFunction)
    (cnt_buckets : Nat) : List (List Int) :=
  (List.range cnt_buckets).map
    (fun i => numbers.filter (fun v => GetHash hash v % cnt_buckets == i))

/-- `FixedSet::InitBuckets`: initialize one `InnerSet` per bucket, in
order, threading the shared generator stream. -/
def FixedSet.InitBuckets (gen : Nat → LinearHashFunction) :
    List (List Int) → Nat → Except BadHashFunctionException (List InnerSet × Nat)
  | [], idx => .ok ([], idx)
  | bucket :: rest, idx =>
    match InnerSet.Initialize gen idx bucket with
    | .error e => .error e
    | .ok (s, idx') =>
      match FixedSet.InitBuckets gen rest idx' with
      | .error e => .error e
      | .ok (ss, idx'') => .ok (s :: ss, idx'')

/-- The top-level acceptance summand
`[](int value) { return value * value; }`. -/
def topCriteriaFun (value : Nat) : Nat :=
  value * value

/-- `FixedSet::Initialize`: bucket count `cnt_number + 1`, retry search
with the quadratic summand and criteria `2 * cnt_number`, then `Split`
and `InitBuckets`. -/
def FixedSet.Initialize (gen : Nat → LinearHashFunction)
    (numbers : List Int) : Except BadHashFunctionException FixedSet :=
  let cnt_number := numbers.length
  let cnt_buckets := cnt_number + 1
  match GetHashFunction cnt_buckets numbers topCriteriaFun (2 * cnt_number) gen 0 with
  | .error e => .error e
  | .ok (hash, idx') =>
    match FixedSet.InitBuckets gen (FixedSet.Split numbers hash cnt_buckets) idx' with
    | .error e => .error e
    | .ok (data, _) => .ok ⟨hash, data, cnt_buckets⟩

/-- `FixedSet::Contains`.  `none` models a failed
`assert(m_cnt_buckets != 0)` or an out-of-bounds vector access. -/
def FixedSet.Contains (s : FixedSet) (number : Int) : Option Bool :=
  if s.m_cnt_buckets = 0 then
    none
  else
    match s.m_data[GetHash s.m_hash number % s.m_cnt_buckets]? with
    | none => none
    | some inner => inner.Contains number

/-! ### Generic list helpers -/

theorem mem_of_getLast?_eq_some {α : Type} {l : List α} {v : α}
    (h : l.getLast? = some v) : v ∈ l := by
  obtain ⟨hne, heq⟩ := List.mem_getLast?_eq_getLast (l := l) (x := v) (Option.mem_def.mpr h)
  rw [heq]
  exact List.getLast_mem hne

theorem filter_eq_singleton_of_length_le_one {α : Type} {l : List α}
    {p : α → Bool} {a : α} (hlen : (l.filter p).length ≤ 1)
    (ha : a ∈ l.filter p) : l.filter p = [a] := by
  have h1 : (l.filter p).length = 1 := by
    have := List.length_pos.mpr (List.ne_nil_of_mem ha)
    omega
  obtain ⟨b, hb⟩ := List.length_eq_one.mp h1
  rw [hb] at ha ⊢
  rw [List.mem_singleton.mp ha]

/-! ### Indexing facts about the occupancy vector and the two `Split`s -/

theorem bucketLens_getElem (hash : LinearHashFunction) (cnt_buckets : Nat)
    (numbers : List Int) {i : Nat} (hi : i < cnt_buckets) :
    (bucketLens hash cnt_buckets numbers)[i]? =
      some ((numbers.filter (fun v => GetHash hash v % cnt_buckets == i)).length) := by
  simp [bucketLens, List.getElem?_range, hi]

theorem split_top_getElem (numbers : List Int) (hash : LinearHashFunction)
    (cnt_buckets : Nat) {i : Nat} (hi : i < cnt_buckets) :
    (FixedSet.Split numbers hash cnt_buckets)[i]? =
      some (numbers.filter (fun v => GetHash hash v % cnt_buckets == i)) := by
  simp [FixedSet.Split, List.getElem?_range, hi]

theorem split_inner_getElem (numbers : List Int) (hash : LinearHashFunction)
    (cnt_buckets : Nat) {i : Nat} (hi : i < cnt_buckets) :
    (InnerSet.Split numbers hash cnt_buckets)[i]? =
      some ((numbers.filter (fun v => GetHash hash v % cnt_buckets == i)).getLast?) := by
  simp [InnerSet.Split, List.getElem?_range, hi]

theorem length_split_top (numbers : List Int) (hash : LinearHashFunction)
    (cnt_buckets : Nat) :
    (FixedSet.Split numbers hash cnt_buckets).length = cnt_buckets := by
  simp [FixedSet.Split]

theorem length_split_inner (numbers : List Int) (hash : LinearHashFunction)
    (cnt_buckets : Nat) :
    (InnerSet.Split numbers hash cnt_buckets).length = cnt_buckets := by
  simp [InnerSet.Split]

/-! ### The retry loop -/

/-- The acceptance predicate of `FixedSet::GetHashFunction`: the candidate's
occupancy sum `hu` is within `criteria`. -/
def accepts (cnt_buckets : Nat) (numbers : List Int) (f : Nat → Nat)
    (criteria : Nat) (hash : LinearHashFunction) : Prop :=
  huOf f (bucketLens hash cnt_buckets numbers) ≤ criteria

instance (cnt_buckets : Nat) (numbers : List Int) (f : Nat → Nat)
    (criteria : Nat) (hash : LinearHashFunction) :
    Decidable (accepts cnt_buckets numbers f criteria hash) :=
  inferInstanceAs (Decidable (_ ≤ _))

theorem getHashFunctionAux_ok_accepts (cnt_buckets : Nat) (numbers : List Int)
    (f : Nat → Nat) (criteria : Nat) (gen : Nat → LinearHashFunction) :
    ∀ attempts idx hash idx',
      getHashFunctionAux cnt_buckets numbers f criteria gen attempts idx =
        .ok (hash, idx') →
      accepts cnt_buckets numbers f criteria hash := by
  intro attempts
  induction attempts with
  | zero =>
    intro idx hash idx' hh
    simp [getHashFunctionAux] at hh
  | succ n ih =>
    intro idx hash idx' hh
    simp only [getHashFunctionAux] at hh
    by_cases hacc : huOf f (bucketLens (gen idx) cnt_buckets numbers) ≤ criteria
    · rw [if_pos hacc] at hh
      simp only [Except.ok.injEq, Prod.mk.injEq] at hh
      exact hh.1 ▸ hacc
    · rw [if_neg hacc] at hh
      exact ih _ _ _ hh

theorem getHashFunctionAux_ok_first (cnt_buckets : Nat) (numbers : List Int)
    (f : Nat → Nat) (criteria : Nat) (gen : Nat → LinearHashFunction) :
    ∀ attempts idx hash idx',
      getHashFunctionAux cnt_buckets numbers f criteria gen attempts idx =
        .ok (hash, idx') →
      ∃ j, j < attempts ∧ hash = gen (idx + j) ∧ idx' = idx + j + 1 ∧
        accepts cnt_buckets numbers f criteria (gen (idx + j)) ∧
        ∀ i, i < j → ¬ accepts cnt_buckets numbers f criteria (gen (idx + i)) := by
  intro attempts
  induction attempts with
  | zero =>
    intro idx hash idx' hh
    simp [getHashFunctionAux] at hh
  | succ n ih =>
    intro idx hash idx' hh
    simp only [getHashFunctionAux] at hh
    by_cases hacc : huOf f (bucketLens (gen idx) cnt_buckets numbers) ≤ criteria
    · rw [if_pos hacc] at hh
      simp only [Except.ok.injEq, Prod.mk.injEq] at hh
      refine ⟨0, by omega, by simpa using hh.1.symm, by omega, by simpa using hacc, ?_⟩
      intro i hi
      omega
    · rw [if_neg hacc] at hh
      obtain ⟨j, hj, hh1, hh2, hh3, hh4⟩ := ih _ _ _ hh
      refine ⟨j + 1, by omega, ?_, by omega, ?_, ?_⟩
      · rw [hh1]
        congr 1
        omega
      · have : idx + 1 + j = idx + (j + 1) := by omega
        rw [← this]
        exact hh3
      · intro i hi
        cases i with
        | zero => simpa [accepts] using hacc
        | succ m =>
          have : idx + (m + 1) = idx + 1 + m := by omega
          rw [this]
          exact hh4 m (by omega)

theorem getHashFunctionAux_error_of_reject (cnt_buckets : Nat)
    (numbers : List Int) (f : Nat → Nat) (criteria : Nat)
    (gen : Nat → LinearHashFunction) :
    ∀ attempts idx,
      (∀ j, j < attempts → ¬ accepts cnt_buckets numbers f criteria (gen (idx + j))) →
      getHashFunctionAux cnt_buckets numbers f criteria gen attempts idx =
        .error ⟨"Bad hash function"⟩ := by
  intro attempts
  induction attempts with
  | zero =>
    intro idx hrej
    rfl
  | succ n ih =>
    intro idx hrej
    have h0 : ¬ huOf f (bucketLens (gen idx) cnt_buckets numbers) ≤ criteria := by
      simpa [accepts] using hrej 0 (by omega)
    simp only [getHashFunctionAux]
    rw [if_neg h0]
    refine ih (idx + 1) ?_
    intro j hj
    have : idx + 1 + j = idx + (j + 1) := by omega
    rw [this]
    exact hrej (j + 1) (by omega)

theorem getHashFunction_ok_accepts (cnt_buckets : Nat) (numbers : List Int)
    (f : Nat → Nat) (criteria : Nat) (gen : Nat → LinearHashFunction)
    (idx : Nat) (hash : LinearHashFunction) (idx' : Nat)
    (h : GetHashFunction cnt_buckets numbers f criteria gen idx = .ok (hash, idx')) :
    accepts cnt_buckets numbers f criteria hash :=
  getHashFunctionAux_ok_accepts cnt_buckets numbers f criteria gen 10 idx hash idx' h

/-! ### Second-level (`InnerSet`) facts -/

theorem innerSet_initialize_ok_parts (gen : Nat → LinearHashFunction)
    (idx : Nat) (numbers : List Int) (s : InnerSet) (idx' : Nat)
    (hok : InnerSet.Initialize gen idx numbers = .ok (s, idx')) :
    s.m_cnt_buckets = numbers.length * numbers.length + 1 ∧
    s.m_data = InnerSet.Split numbers s.m_hash s.m_cnt_buckets ∧
    accepts s.m_cnt_buckets numbers innerCriteriaFun 0 s.m_hash := by
  simp only [InnerSet.Initialize] at hok
  cases hg : GetHashFunction (numbers.length * numbers.length + 1) numbers
      innerCriteriaFun 0 gen idx with
  | error e =>
    rw [hg] at hok
    simp at hok
  | ok p =>
    obtain ⟨hash, idx2⟩ := p
    rw [hg] at hok
    simp only [Except.ok.injEq, Prod.mk.injEq] at hok
    obtain ⟨hs, hidx⟩ := hok
    subst hs
    exact ⟨rfl, rfl, getHashFunction_ok_accepts _ _ _ _ _ _ _ _ hg⟩

theorem le_one_of_accepts_inner {cnt_buckets : Nat} {numbers : List Int}
    {hash : LinearHashFunction}
    (h : accepts cnt_buckets numbers innerCriteriaFun 0 hash) :
    ∀ c ∈ bucketLens hash cnt_buckets numbers, c ≤ 1 := by
  intro c hc
  have h0 : ((bucketLens hash cnt_buckets numbers).map innerCriteriaFun).sum = 0 :=
    Nat.le_zero.mp h
  have hz := List.sum_eq_zero_iff.mp h0 (innerCriteriaFun c)
    (List.mem_map_of_mem _ hc)
  rcases le_or_lt c 1 with h1 | h1
  · exact h1
  · rw [innerCriteriaFun, if_neg (by omega)] at hz
    omega

theorem innerSet_slot_home (gen : Nat → LinearHashFunction) (idx : Nat)
    (numbers : List Int) (s : InnerSet) (idx' : Nat)
    (hok : InnerSet.Initialize gen idx numbers = .ok (s, idx'))
    {k : Int} (hk : k ∈ numbers) :
    s.m_data[GetHash s.m_hash k % s.m_cnt_buckets]? = some (some k) := by
  obtain ⟨hcnt, hdata, hacc⟩ := innerSet_initialize_ok_parts gen idx numbers s idx' hok
  have hcpos : 0 < s.m_cnt_buckets := by omega
  have hi : GetHash s.m_hash k % s.m_cnt_buckets < s.m_cnt_buckets :=
    Nat.mod_lt _ hcpos
  rw [hdata, split_inner_getElem numbers s.m_hash s.m_cnt_buckets hi]
  have hmem : k ∈ numbers.filter
      (fun v => GetHash s.m_hash v % s.m_cnt_buckets ==
        GetHash s.m_hash k % s.m_cnt_buckets) :=
    List.mem_filter.mpr ⟨hk, by simp⟩
  have hlen : (numbers.filter
      (fun v => GetHash s.m_hash v % s.m_cnt_buckets ==
        GetHash s.m_hash k % s.m_cnt_buckets)).length ≤ 1 :=
    le_one_of_accepts_inner hacc _
      (List.mem_iff_getElem?.mpr ⟨_, bucketLens_getElem s.m_hash s.m_cnt_buckets numbers hi⟩)
  rw [filter_eq_singleton_of_length_le_one hlen hmem]
  rfl

theorem innerSet_contains_of_mem (gen : Nat → LinearHashFunction) (idx : Nat)
    (numbers : List Int) (s : InnerSet) (idx' : Nat)
    (hok : InnerSet.Initialize gen idx numbers = .ok (s, idx'))
    {k : Int} (hk : k ∈ numbers) :
    s.Contains k = some true := by
  obtain ⟨hcnt, _, _⟩ := innerSet_initialize_ok_parts gen idx numbers s idx' hok
  have hslot := innerSet_slot_home gen idx numbers s idx' hok hk
  unfold InnerSet.Contains
  rw [if_neg (by omega), hslot]
  simp

theorem innerSet_contains_of_not_mem (gen : Nat → LinearHashFunction) (idx : Nat)
    (numbers : List Int) (s : InnerSet) (idx' : Nat)
    (hok : InnerSet.Initialize gen idx numbers = .ok (s, idx'))
    {q : Int} (hq : q ∉ numbers) :
    s.Contains q = some false := by
  obtain ⟨hcnt, hdata, _⟩ := innerSet_initialize_ok_parts gen idx numbers s idx' hok
  have hcpos : 0 < s.m_cnt_buckets := by omega
  have hi : GetHash s.m_hash q % s.m_cnt_buckets < s.m_cnt_buckets :=
    Nat.mod_lt _ hcpos
  unfold InnerSet.Contains
  rw [if_neg (by omega), hdata, split_inner_getElem numbers s.m_hash s.m_cnt_buckets hi]
  cases hlast : (numbers.filter
      (fun v => GetHash s.m_hash v % s.m_cnt_buckets ==
        GetHash s.m_hash q % s.m_cnt_buckets)).getLast? with
  | none => rfl
  | some v =>
    have hv : v ∈ numbers := (List.mem_filter.mp (mem_of_getLast?_eq_some hlast)).1
    have hne : v ≠ q := fun he => hq (he ▸ hv)
    simp [hne]

theorem innerSet_contains_isSome (gen : Nat → LinearHashFunction) (idx : Nat)
    (numbers : List Int) (s : InnerSet) (idx' : Nat)
    (hok : InnerSet.Initialize gen idx numbers = .ok (s, idx'))
    (q : Int) : (s.Contains q).isSome = true := by
  obtain ⟨hcnt, hdata, _⟩ := innerSet_initialize_ok_parts gen idx numbers s idx' hok
  have hcpos : 0 < s.m_cnt_buckets := by omega
  have hi : GetHash s.m_hash q % s.m_cnt_buckets < s.m_cnt_buckets :=
    Nat.mod_lt _ hcpos
  unfold InnerSet.Contains
  rw [if_neg (by omega), hdata, split_inner_getElem numbers s.m_hash s.m_cnt_buckets hi]
  cases (numbers.filter
      (fun v => GetHash s.m_hash v % s.m_cnt_buckets ==
        GetHash s.m_hash q % s.m_cnt_buckets)).getLast? with
  | none => rfl
  | some v => rfl

/-! ### Top-level (`FixedSet`) facts -/

theorem initBuckets_ok_spec (gen : Nat → LinearHashFunction) :
    ∀ (buckets : List (List Int)) (idx : Nat) (data : List InnerSet) (idx' : Nat),
      FixedSet.InitBuckets gen buckets idx = .ok (data, idx') →
      data.length = buckets.length ∧
      ∀ (i : Nat) (b : List Int), buckets[i]? = some b →
        ∃ (s : InnerSet) (j j' : Nat),
          data[i]? = some s ∧ InnerSet.Initialize gen j b = .ok (s, j') := by
  intro buckets
  induction buckets with
  | nil =>
    intro idx data idx' h
    simp only [FixedSet.InitBuckets, Except.ok.injEq, Prod.mk.injEq] at h
    obtain ⟨hd, _⟩ := h
    subst hd
    exact ⟨rfl, by intro i b hb; simp at hb⟩
  | cons b rest ih =>
    intro idx data idx' h
    simp only [FixedSet.InitBuckets] at h
    cases h1 : InnerSet.Initialize gen idx b with
    | error e =>
      rw [h1] at h
      simp at h
    | ok p =>
      obtain ⟨s, idx1⟩ := p
      rw [h1] at h
      dsimp only at h
      cases h2 : FixedSet.InitBuckets gen rest idx1 with
      | error e =>
        rw [h2] at h
        simp at h
      | ok p2 =>
        obtain ⟨ss, idx2⟩ := p2
        rw [h2] at h
        simp only [Except.ok.injEq, Prod.mk.injEq] at h
        obtain ⟨hd, _⟩ := h
        subst hd
        obtain ⟨hlen, hspec⟩ := ih idx1 ss idx2 h2
        refine ⟨by simp [hlen], ?_⟩
        intro i bb hb
        cases i with
        | zero =>
          rw [List.getElem?_cons_zero] at hb
          obtain rfl : b = bb := by simpa using hb
          exact ⟨s, idx, idx1, by simp, h1⟩
        | succ m =>
          rw [List.getElem?_cons_succ] at hb
          obtain ⟨s', j, j', hd', hinit⟩ := hspec m bb hb
          exact ⟨s', j, j', by simpa using hd', hinit⟩

theorem fixedSet_initialize_ok_parts (gen : Nat → LinearHashFunction)
    (numbers : List Int) (fs : FixedSet)
    (hok : FixedSet.Initialize gen numbers = .ok fs) :
    fs.m_cnt_buckets = numbers.length + 1 ∧
    accepts fs.m_cnt_buckets numbers topCriteriaFun (2 * numbers.length) fs.m_hash ∧
    ∃ idx1 idx2, FixedSet.InitBuckets gen
      (FixedSet.Split numbers fs.m_hash fs.m_cnt_buckets) idx1 = .ok (fs.m_data, idx2) := by
  simp only [FixedSet.Initialize] at hok
  cases hg : GetHashFunction (numbers.length + 1) numbers topCriteriaFun
      (2 * numbers.length) gen 0 with
  | error e =>
    rw [hg] at hok
    simp at hok
  | ok p =>
    obtain ⟨hash, idx1⟩ := p
    rw [hg] at hok
    dsimp only at hok
    cases hb : FixedSet.InitBuckets gen
        (FixedSet.Split numbers hash (numbers.length + 1)) idx1 with
    | error e =>
      rw [hb] at hok
      simp at hok
    | ok p2 =>
      obtain ⟨data, idx2⟩ := p2
      rw [hb] at hok
      simp only [Except.ok.injEq] at hok
      subst hok
      exact ⟨rfl, getHashFunction_ok_accepts _ _ _ _ _ _ _ _ hg, idx1, idx2, hb⟩

theorem fixedSet_data_length (gen : Nat → LinearHashFunction)
    (numbers : List Int) (fs : FixedSet)
    (hok : FixedSet.Initialize gen numbers = .ok fs) :
    fs.m_data.length = fs.m_cnt_buckets := by
  obtain ⟨hcnt, _, idx1, idx2, hb⟩ := fixedSet_initialize_ok_parts gen numbers fs hok
  obtain ⟨hlen, _⟩ := initBuckets_ok_spec gen _ idx1 _ idx2 hb
  rw [hlen, length_split_top]

/-! ### Concrete material for witnesses -/

/-- A deterministic generator stream for concrete witnesses: every draw
is the hash function with coefficient 1 and bias 0. -/
def cgen : Nat → LinearHashFunction := fun _ => ⟨1, 0⟩

/-- The table `FixedSet::Initialize` builds from the key list `[0]`
under the stream `cgen`. -/
def fsA : FixedSet :=
  ⟨⟨1, 0⟩, [⟨⟨1, 0⟩, [some 0, none], 2⟩, ⟨⟨1, 0⟩, [none], 1⟩], 2⟩

theorem fsA_ok : FixedSet.Initialize cgen [0] = .ok fsA := by
  rfl

/-- The inner table `InnerSet::Initialize` builds from the key list `[0]`
under the stream `cgen`. -/
def innerA : InnerSet := ⟨⟨1, 0⟩, [some 0, none], 2⟩

theorem innerA_ok : InnerSet.Initialize cgen 0 [0] = .ok (innerA, 1) := by
  rfl

/-! ### Claim theorems -/

/-- C1: for every finite list `S` of distinct integers, if
`FixedSet::Initialize(S)` completes successfully (does not raise
`BadHashFunction`), then `FixedSet::Contains(k)` returns `true` for
every key `k` in `S`. -/
theorem initialize_ok_contains_mem (gen : Nat → LinearHashFunction)
    (numbers : List Int) (fs : FixedSet) ( _hnd : numbers.Nodup)
    (hok : FixedSet.Initialize gen numbers = .ok fs) :
    ∀ k ∈ numbers, fs.Contains k = some true := by
  intro k hk
  obtain ⟨hcnt, _, idx1, idx2, hb⟩ := fixedSet_initialize_ok_parts gen numbers fs hok
  obtain ⟨_, hspec⟩ := initBuckets_ok_spec gen _ idx1 _ idx2 hb
  have hcpos : 0 < fs.m_cnt_buckets := by omega
  have hi : GetHash fs.m_hash k % fs.m_cnt_buckets < fs.m_cnt_buckets :=
    Nat.mod_lt _ hcpos
  obtain ⟨s, j, j', hd, hinit⟩ :=
    hspec _ _ (split_top_getElem numbers fs.m_hash fs.m_cnt_buckets hi)
  have hkb : k ∈ numbers.filter
      (fun v => GetHash fs.m_hash v % fs.m_cnt_buckets ==
        GetHash fs.m_hash k % fs.m_cnt_buckets) :=
    List.mem_filter.mpr ⟨hk, by simp⟩
  unfold FixedSet.Contains
  rw [if_neg (by omega), hd]
  exact innerSet_contains_of_mem gen j _ s j' hinit hkb

theorem initialize_ok_contains_mem_witness :
    FixedSet.Contains fsA 0 = some true :=
  initialize_ok_contains_mem cgen [0] fsA (by decide) fsA_ok 0 (by decide)

/-- C2: for every finite list `S` of distinct integers and every integer
`q` not in `S`, after a successful `FixedSet::Initialize(S)`,
`FixedSet::Contains(q)` returns `false`: the stored-key comparison in
the inner table rules out any false positive, for any integer query. -/
theorem initialize_ok_contains_not_mem (gen : Nat → LinearHashFunction)
    (numbers : List Int) (fs : FixedSet) (q : Int) ( _hnd : numbers.Nodup)
    (hok : FixedSet.Initialize gen numbers = .ok fs) (hq : q ∉ numbers) :
    fs.Contains q = some false := by
  obtain ⟨hcnt, _, idx1, idx2, hb⟩ := fixedSet_initialize_ok_parts gen numbers fs hok
  obtain ⟨_, hspec⟩ := initBuckets_ok_spec gen _ idx1 _ idx2 hb
  have hcpos : 0 < fs.m_cnt_buckets := by omega
  have hi : GetHash fs.m_hash q % fs.m_cnt_buckets < fs.m_cnt_buckets :=
    Nat.mod_lt _ hcpos
  obtain ⟨s, j, j', hd, hinit⟩ :=
    hspec _ _ (split_top_getElem numbers fs.m_hash fs.m_cnt_buckets hi)
  have hqb : q ∉ numbers.filter
      (fun v => GetHash fs.m_hash v % fs.m_cnt_buckets ==
        GetHash fs.m_hash q % fs.m_cnt_buckets) :=
    fun hmem => hq (List.mem_filter.mp hmem).1
  unfold FixedSet.Contains
  rw [if_neg (by omega), hd]
  exact innerSet_contains_of_not_mem gen j _ s j' hinit hqb

theorem initialize_ok_contains_not_mem_witness :
    FixedSet.Contains fsA 5 = some false :=
  initialize_ok_contains_not_mem cgen [0] fsA 5 (by decide) fsA_ok (by decide)

/-- C5: after a successful `InnerSet::Initialize(keys)`, the accepted
second-level hash function is collision-free on that bucket's keys:
every per-slot occupancy count is at most 1, every key occupies its own
slot, and distinct keys map to distinct slot indices. -/
theorem innerSet_initialize_collision_free (gen : Nat → LinearHashFunction)
    (idx : Nat) (numbers : List Int) (s : InnerSet) (idx' : Nat)
    (hok : InnerSet.Initialize gen idx numbers = .ok (s, idx')) :
    (∀ c ∈ bucketLens s.m_hash s.m_cnt_buckets numbers, c ≤ 1) ∧
    (∀ k ∈ numbers, s.m_data[GetHash s.m_hash k % s.m_cnt_buckets]? = some (some k)) ∧
    (∀ k1 ∈ numbers, ∀ k2 ∈ numbers,
      GetHash s.m_hash k1 % s.m_cnt_buckets = GetHash s.m_hash k2 % s.m_cnt_buckets →
      k1 = k2) := by
  obtain ⟨hcnt, hdata, hacc⟩ := innerSet_initialize_ok_parts gen idx numbers s idx' hok
  refine ⟨le_one_of_accepts_inner hacc,
    fun k hk => innerSet_slot_home gen idx numbers s idx' hok hk, ?_⟩
  intro k1 hk1 k2 hk2 heq
  have h1 := innerSet_slot_home gen idx numbers s idx' hok hk1
  have h2 := innerSet_slot_home gen idx numbers s idx' hok hk2
  rw [heq] at h1
  have h3 : (some (some k2) : Option (Option Int)) = some (some k1) :=
    h2.symm.trans h1
  simpa using h3.symm

theorem innerSet_initialize_collision_free_witness :
    innerA.m_data[GetHash innerA.m_hash 0 % innerA.m_cnt_buckets]? = some (some 0) :=
  (innerSet_initialize_collision_free cgen 0 [0] innerA 1 innerA_ok).2.1
    0 (by decide)

/-- C9: after a successful `FixedSet::Initialize`, `FixedSet::Contains`
never fails for any integer input: the divisors are nonzero, all indices
are in bounds, the assertions hold, and the query returns a boolean. -/
theorem initialize_ok_contains_total (gen : Nat → LinearHashFunction)
    (numbers : List Int) (fs : FixedSet)
    (hok : FixedSet.Initialize gen numbers = .ok fs) :
    ∀ q : Int, (fs.Contains q).isSome = true := by
  intro q
  obtain ⟨hcnt, _, idx1, idx2, hb⟩ := fixedSet_initialize_ok_parts gen numbers fs hok
  obtain ⟨_, hspec⟩ := initBuckets_ok_spec gen _ idx1 _ idx2 hb
  have hcpos : 0 < fs.m_cnt_buckets := by omega
  have hi : GetHash fs.m_hash q % fs.m_cnt_buckets < fs.m_cnt_buckets :=
    Nat.mod_lt _ hcpos
  obtain ⟨s, j, j', hd, hinit⟩ :=
    hspec _ _ (split_top_getElem numbers fs.m_hash fs.m_cnt_buckets hi)
  unfold FixedSet.Contains
  rw [if_neg (by omega), hd]
  exact innerSet_contains_isSome gen j _ s j' hinit q

theorem initialize_ok_contains_total_witness :
    (FixedSet.Contains fsA (-7)).isSome = true :=
  initialize_ok_contains_total cgen [0] fsA fsA_ok (-7)

/-- C10: slot-consistency invariant.  After a successful
`FixedSet::Initialize(S)`, every key `k` of `S` lies in the inner set at
top-level index `GetHash_top(k) % cnt_buckets` and there occupies slot
`GetHash_inner(k) % inner_cnt_buckets`; conversely every occupied slot
of every inner table holds a key of `S` satisfying exactly this. -/
theorem slot_consistency (gen : Nat → LinearHashFunction)
    (numbers : List Int) (fs : FixedSet)
    (hok : FixedSet.Initialize gen numbers = .ok fs) :
    (∀ k ∈ numbers, ∃ s : InnerSet,
      fs.m_data[GetHash fs.m_hash k % fs.m_cnt_buckets]? = some s ∧
      s.m_data[GetHash s.m_hash k % s.m_cnt_buckets]? = some (some k)) ∧
    (∀ (i : Nat) (s : InnerSet), fs.m_data[i]? = some s →
      ∀ (j : Nat) (k : Int), s.m_data[j]? = some (some k) →
        k ∈ numbers ∧ i = GetHash fs.m_hash k % fs.m_cnt_buckets ∧
        j = GetHash s.m_hash k % s.m_cnt_buckets) := by
  obtain ⟨hcnt, _, idx1, idx2, hb⟩ := fixedSet_initialize_ok_parts gen numbers fs hok
  obtain ⟨hlen, hspec⟩ := initBuckets_ok_spec gen _ idx1 _ idx2 hb
  have hcpos : 0 < fs.m_cnt_buckets := by omega
  constructor
  · intro k hk
    have hi : GetHash fs.m_hash k % fs.m_cnt_buckets < fs.m_cnt_buckets :=
      Nat.mod_lt _ hcpos
    obtain ⟨s, j, j', hd, hinit⟩ :=
      hspec _ _ (split_top_getElem numbers fs.m_hash fs.m_cnt_buckets hi)
    have hkb : k ∈ numbers.filter
        (fun v => GetHash fs.m_hash v % fs.m_cnt_buckets ==
          GetHash fs.m_hash k % fs.m_cnt_buckets) :=
      List.mem_filter.mpr ⟨hk, by simp⟩
    exact ⟨s, hd, innerSet_slot_home gen j _ s j' hinit hkb⟩
  · intro i s hd j k hslot
    have hdlen : fs.m_data.length = fs.m_cnt_buckets := by
      rw [hlen, length_split_top]
    have hi : i < fs.m_cnt_buckets := by
      rcases lt_or_le i fs.m_data.length with h | h
      · omega
      · rw [List.getElem?_eq_none h] at hd
        simp at hd
    obtain ⟨s2, j0, j0', hd2, hinit⟩ :=
      hspec _ _ (split_top_getElem numbers fs.m_hash fs.m_cnt_buckets hi)
    rw [hd] at hd2
    have hs2 : s = s2 := by simpa using hd2
    subst hs2
    obtain ⟨hc', hdat, _⟩ := innerSet_initialize_ok_parts gen j0 _ s j0' hinit
    have hslen : s.m_data.length = s.m_cnt_buckets := by
      rw [hdat, length_split_inner]
    have hj : j < s.m_cnt_buckets := by
      rcases lt_or_le j s.m_data.length with h | h
      · omega
      · rw [List.getElem?_eq_none h] at hslot
        simp at hslot
    rw [hdat, split_inner_getElem _ _ _ hj] at hslot
    have hlast := mem_of_getLast?_eq_some (Option.some.inj hslot)
    rw [List.mem_filter] at hlast
    obtain ⟨hk_b, hk_j⟩ := hlast
    rw [List.mem_filter] at hk_b
    obtain ⟨hk_n, hk_i⟩ := hk_b
    simp only [beq_iff_eq] at hk_i hk_j
    exact ⟨hk_n, hk_i.symm, hk_j.symm⟩

theorem slot_consistency_witness :
    ∃ s : InnerSet,
      fsA.m_data[GetHash fsA.m_hash 0 % fsA.m_cnt_buckets]? = some s ∧
      s.m_data[GetHash s.m_hash 0 % s.m_cnt_buckets]? = some (some 0) :=
  (slot_consistency cgen [0] fsA fsA_ok).1 0 (by decide)

/-- C3 counterexample: at key `-1` with coefficient 1 and bias 0 the
affine value is `-1`; its truncated `long long` remainder is negative,
and the conversion to the unsigned `size_t` modulus wraps modulo `2^64`
first, so `GetHash` does not return the mathematical residue
`(-1) mod p = 1000000020`. -/
theorem getHash_residue_counterexample :
    ¬ (GetHash ⟨1, 0⟩ (-1) < kPrime ∧
       (GetHash ⟨1, 0⟩ (-1) : Int) = ((-1 : Int) * 1 + 0) % (kPrime : Int)) := by
  decide

/-- C3 (amended): `GetHash` always returns a value in `[0, p)`; it equals
the mathematical residue `(a·x + b) mod p` whenever the 64-bit affine
value is non-negative, but for a negative affine value the implicit
signed-to-unsigned conversion yields `((a·x + b) + 2^64) mod p` instead
(no multiple of `p` is added before reducing). -/
theorem getHash_spec (h : LinearHashFunction) (x : Int) :
    GetHash h x < kPrime ∧
    (0 ≤ x * h.m_coefficien + h.m_bias →
      x * h.m_coefficien + h.m_bias < 2 ^ 64 →
      (GetHash h x : Int) = (x * h.m_coefficien + h.m_bias) % (kPrime : Int)) ∧
    (x * h.m_coefficien + h.m_bias < 0 →
      -(2 ^ 64) ≤ x * h.m_coefficien + h.m_bias →
      (GetHash h x : Int) =
        (x * h.m_coefficien + h.m_bias + 2 ^ 64) % (kPrime : Int)) := by
  refine ⟨Nat.mod_lt _ (by norm_num [kPrime]), ?_, ?_⟩
  · intro h0 h1
    unfold GetHash
    rw [Int.emod_eq_of_lt h0 h1, Int.natCast_mod, Int.toNat_of_nonneg h0]
  · intro h0 h1
    unfold GetHash
    have hshift : (x * h.m_coefficien + h.m_bias) % (2 ^ 64 : Int) =
        x * h.m_coefficien + h.m_bias + 2 ^ 64 := by
      have hself := Int.add_mul_emod_self_left
        (a := x * h.m_coefficien + h.m_bias) (b := (2 : Int) ^ 64) (c := 1)
      rw [mul_one] at hself
      rw [← hself]
      exact Int.emod_eq_of_lt (by linarith) (by linarith)
    rw [hshift, Int.natCast_mod, Int.toNat_of_nonneg (by linarith)]

theorem getHash_spec_witness :
    (GetHash ⟨1, 0⟩ 5 : Int) = ((5 : Int) * 1 + 0) % (kPrime : Int) ∧
    (GetHash ⟨1, 0⟩ (-1) : Int) = ((-1 : Int) * 1 + 0 + 2 ^ 64) % (kPrime : Int) :=
  ⟨(getHash_spec ⟨1, 0⟩ 5).2.1 (by decide) (by decide),
   (getHash_spec ⟨1, 0⟩ (-1)).2.2 (by decide) (by decide)⟩

/-- C4: the retry search returns the first candidate hash function whose
occupancy counts satisfy the acceptance predicate, or, after the fixed
ceiling of 10 attempts without acceptance, raises the `BadHashFunction`
error; a top-level search failure propagates out of `Initialize` and
aborts construction (no silently corrupt or defaulted-to-empty table). -/
theorem getHashFunction_retry_spec (cnt_buckets : Nat) (numbers : List Int)
    (f : Nat → Nat) (criteria : Nat) (gen : Nat → LinearHashFunction)
    (idx : Nat) :
    ((∀ j, j < 10 → ¬ accepts cnt_buckets numbers f criteria (gen (idx + j))) →
      GetHashFunction cnt_buckets numbers f criteria gen idx =
        .error ⟨"Bad hash function"⟩) ∧
    (∀ (hash : LinearHashFunction) (idx' : Nat),
      GetHashFunction cnt_buckets numbers f criteria gen idx = .ok (hash, idx') →
      ∃ j, j < 10 ∧ hash = gen (idx + j) ∧ idx' = idx + j + 1 ∧
        accepts cnt_buckets numbers f criteria (gen (idx + j)) ∧
        ∀ i, i < j → ¬ accepts cnt_buckets numbers f criteria (gen (idx + i))) ∧
    (∀ e : BadHashFunctionException,
      GetHashFunction (numbers.length + 1) numbers topCriteriaFun
        (2 * numbers.length) gen 0 = .error e →
      FixedSet.Initialize gen numbers = .error e) := by
  refine ⟨?_, ?_, ?_⟩
  · intro hrej
    exact getHashFunctionAux_error_of_reject cnt_buckets numbers f criteria gen
      10 idx hrej
  · intro hash idx' hh
    exact getHashFunctionAux_ok_first cnt_buckets numbers f criteria gen
      10 idx hash idx' hh
  · intro e he
    simp only [FixedSet.Initialize]
    rw [he]

theorem getHashFunction_retry_spec_witness :
    GetHashFunction 1 [0, 1] innerCriteriaFun 0 cgen 0 =
      .error ⟨"Bad hash function"⟩ :=
  (getHashFunction_retry_spec 1 [0, 1] innerCriteriaFun 0 cgen 0).1 (by decide)

/-- C6 counterexample: on the key list `[0]` construction succeeds, but
the number of top-level buckets is `2 = key count + 1`, not the key
count `1`: the claim's identification of the bucket count `N` with the
key count fails on the code. -/
theorem topLevel_bucket_count_counterexample :
    (FixedSet.Initialize cgen [0]).toOption.map FixedSet.m_cnt_buckets = some 2 ∧
    (2 : Nat) ≠ ([0] : List Int).length := by
  exact ⟨by rw [fsA_ok]; rfl, by decide⟩

/-- C6 (amended): after a successful `FixedSet::Initialize`, the
accepted top-level hash function satisfies `Σ occupancy² ≤ 2·n` where
`n` is the key count; the bucket count is `n + 1` (so the sum is in
particular at most `2·N` for `N` the bucket count, but `N` is not the
key count). -/
theorem topLevel_quadratic_sum_bound (gen : Nat → LinearHashFunction)
    (numbers : List Int) (fs : FixedSet)
    (hok : FixedSet.Initialize gen numbers = .ok fs) :
    ((FixedSet.Split numbers fs.m_hash fs.m_cnt_buckets).map
        (fun b => b.length * b.length)).sum ≤ 2 * numbers.length ∧
    fs.m_cnt_buckets = numbers.length + 1 := by
  obtain ⟨hcnt, hacc, _⟩ := fixedSet_initialize_ok_parts gen numbers fs hok
  refine ⟨?_, hcnt⟩
  have heq : ((FixedSet.Split numbers fs.m_hash fs.m_cnt_buckets).map
      (fun b => b.length * b.length)).sum =
      huOf topCriteriaFun (bucketLens fs.m_hash fs.m_cnt_buckets numbers) := by
    simp only [FixedSet.Split, bucketLens, huOf, List.map_map]
    rfl
  rw [heq]
  exact hacc

theorem topLevel_quadratic_sum_bound_witness :
    ((FixedSet.Split [0] fsA.m_hash fsA.m_cnt_buckets).map
        (fun b => b.length * b.length)).sum ≤ 2 * ([0] : List Int).length ∧
    fsA.m_cnt_buckets = ([0] : List Int).length + 1 :=
  topLevel_quadratic_sum_bound cgen [0] fsA fsA_ok

/-- C7 counterexample: `InnerSet::Initialize` on the one-key bucket `[5]`
succeeds and builds a slot array of size `1² + 1 = 2`, not `1² = 1`:
the claim's second-level table size `k²` fails on the code (and the
top-level bucket count is `n + 1`, not `n`). -/
theorem innerSet_table_size_counterexample :
    (InnerSet.Initialize cgen 0 [5]).toOption.map
      (fun p => p.1.m_cnt_buckets) = some 2 ∧
    (2 : Nat) ≠ ([5] : List Int).length * ([5] : List Int).length := by
  exact ⟨by rfl, by decide⟩

/-- C7 (amended): the sizing formulas of the code are: `n + 1` top-level
buckets for a key set of size `n`, and an inner table of size `k² + 1`
for a bucket holding `k` keys, which is the size of that bucket's slot
array. -/
theorem table_sizing_formulas (gen : Nat → LinearHashFunction)
    (numbers : List Int) (fs : FixedSet)
    (hok : FixedSet.Initialize gen numbers = .ok fs) :
    fs.m_cnt_buckets = numbers.length + 1 ∧
    fs.m_data.length = fs.m_cnt_buckets ∧
    (∀ (i : Nat) (b : List Int),
      (FixedSet.Split numbers fs.m_hash fs.m_cnt_buckets)[i]? = some b →
      ∃ s : InnerSet, fs.m_data[i]? = some s ∧
        s.m_cnt_buckets = b.length * b.length + 1 ∧
        s.m_data.length = s.m_cnt_buckets) := by
  obtain ⟨hcnt, _, idx1, idx2, hb⟩ := fixedSet_initialize_ok_parts gen numbers fs hok
  obtain ⟨hlen, hspec⟩ := initBuckets_ok_spec gen _ idx1 _ idx2 hb
  refine ⟨hcnt, fixedSet_data_length gen numbers fs hok, ?_⟩
  intro i b hbs
  obtain ⟨s, j, j', hd, hinit⟩ := hspec i b hbs
  obtain ⟨hc', hdat, _⟩ := innerSet_initialize_ok_parts gen j b s j' hinit
  exact ⟨s, hd, hc', by rw [hdat, length_split_inner]⟩

theorem table_sizing_formulas_witness :
    ∃ s : InnerSet, fsA.m_data[0]? = some s ∧
      s.m_cnt_buckets = ([0] : List Int).length * ([0] : List Int).length + 1 ∧
      s.m_data.length = s.m_cnt_buckets :=
  (table_sizing_formulas cgen [0] fsA fsA_ok).2.2 0 [0] (by rfl)

/-- C8 counterexample: `InnerSet::Initialize` on the empty key list
builds a table of size `0² + 1 = 1`, not a zero-size table (and its
`Contains` does evaluate the hash function on the query before the
modulo by 1). -/
theorem innerSet_empty_counterexample :
    (InnerSet.Initialize cgen 0 ([] : List Int)).toOption.map
      (fun p => p.1.m_cnt_buckets) = some 1 ∧ (1 : Nat) ≠ 0 := by
  exact ⟨by rfl, by decide⟩

/-- C8 (amended): initializing with an empty key sequence always
succeeds and the resulting table answers `false` to every integer
query; at the bucket level, `InnerSet::Initialize` on the empty
sequence produces a table with a single empty slot (size `0² + 1 = 1`)
whose `Contains` returns `false` for every query. -/
theorem empty_initialize_contains_false (gen : Nat → LinearHashFunction) :
    (∃ fs : FixedSet, FixedSet.Initialize gen [] = .ok fs ∧
      ∀ q : Int, fs.Contains q = some false) ∧
    (∀ idx : Nat, ∃ (s : InnerSet) (idx' : Nat),
      InnerSet.Initialize gen idx [] = .ok (s, idx') ∧
      s.m_cnt_buckets = 1 ∧ s.m_data = [none] ∧
      ∀ q : Int, s.Contains q = some false) := by
  constructor
  · refine ⟨⟨gen 0, [⟨gen 1, [none], 1⟩], 1⟩, rfl, ?_⟩
    intro q
    simp [FixedSet.Contains, InnerSet.Contains, Nat.mod_one]
  · intro idx
    refine ⟨⟨gen idx, [none], 1⟩, idx + 1, rfl, rfl, rfl, ?_⟩
    intro q
    simp [InnerSet.Contains, Nat.mod_one]

end FixedSetSpec
